import Mathlib

/-!
# noir: the view state machine and the credential store of `noir/main.go`

A shallow embedding of `getCachedUsername`, `initialModel`, `SearchUpdate`,
`DetailsUpdate` and `Update`.

* Go `int` is `Int`; the two places that do arithmetic on a field of the model
  (`detailsFocusIndex+1`, `detailsFocusIndex-1`) wrap at 64 bits.
* Go `error` values are `Option Error`, `none` being `nil`.
* The process environment and the file system are read through a record `OS`
  that is handed to each call; the call to `os.WriteFile` is returned as an
  output of the step.
* The text-entry widget (`noir/textinput`) and the spinner are parameters
  (`Widgets`): every theorem about `Update` holds for all of them.
* The global `steamGames` is a field of the state threaded through `Update`.
-/

namespace Noir

/-! ## Messages and commands -/

/-- Go `error`, identified by its text. -/
abbrev Error := String

/-- The key kinds of `tea.KeyType` that the program tests, and the rest. -/
inductive KeyType
  | KeyRunes
  | KeyEnter
  | KeyCtrlC
  | KeyEscape
  | KeyLeft
  | KeyRight
  | KeyBackspace
  | KeyOther (code : Nat)
  deriving DecidableEq, Repr

/-- A key press, `tea.KeyMsg`: its kind and the runes it carries. -/
structure KeyMsg where
  Type_ : KeyType
  Runes : List Char
  Alt : Bool
  deriving DecidableEq, Repr

/-- Catalog entry, `type game struct`. -/
structure game where
  Appid : Int
  Name : String
  deriving DecidableEq, Repr

/-- Supported platforms, `type platformSupport struct`. -/
structure platformSupport where
  MacOS : Bool
  Linux : Bool
  Windows : Bool
  deriving DecidableEq, Repr

/-- The anonymous struct of the field `ReleaseDate`. -/
structure releaseDate where
  ComingSoon : Bool
  Date : String
  deriving DecidableEq, Repr

/-- Game metadata, `type details struct` (the never-written field `Unused` is left out). -/
structure details where
  Appid : Int
  Title : String
  Description : String
  Developer : List String
  ReleaseDate : releaseDate
  Website : String
  Platforms : platformSupport
  deriving DecidableEq, Repr

/-- The zero value of `details`. -/
def details.zero : details :=
  { Appid := 0, Title := "", Description := "", Developer := [],
    ReleaseDate := { ComingSoon := false, Date := "" }, Website := "",
    Platforms := { MacOS := false, Linux := false, Windows := false } }

/-- The messages folded by `Update` (`tea.Msg`): key presses, the five message
types declared in `main.go`, the spinner tick, and any other message. -/
inductive Msg
  | KeyMsg (k : KeyMsg)
  | fetchSuccessMsg (games : List game)
  | fetchDetailsSuccessMsg (d : details)
  | fetchErrMsg (e : Error)
  | clearErrorMsg
  | downloadGameSuccess
  | spinnerTickMsg
  | other (tag : Nat)
  deriving DecidableEq, Repr

/-- The commands returned by the update functions (`tea.Cmd`).
`downloadGame appid platforms index username` is the closure
`func() tea.Msg { return downloadGame(appid, platforms[index], username) }`:
the slice is indexed when the command runs. `ext` is a command made by a widget. -/
inductive Cmd
  | nil
  | Quit
  | getGames
  | getGameInfo (appid : Int)
  | Tick (nanoseconds : Int) (msg : Msg)
  | downloadGame (appid : Int) (platforms : List String) (index : Int) (username : String)
  | Batch (cmds : List Cmd)
  | ext (tag : Nat)

/-- Go slice indexing `platforms[index]`: `none` is the out-of-range panic. -/
def sliceIndex (platforms : List String) (index : Int) : Option String :=
  if 0 ≤ index then platforms.get? index.toNat else none

/-- The arguments `downloadGame` is called with when a download command runs;
`none` when indexing the platform slice panics, or the command is no download. -/
def Cmd.downloadArgs : Cmd → Option (Int × String × String)
  | .downloadGame appid platforms index username =>
      match sliceIndex platforms index with
      | some p => some (appid, p, username)
      | none => none
  | _ => none

/-! ## The environment -/

/-- What the program reads from the process environment, the file system and
the path library. `stat p` is `os.Stat(p)` followed by
`time.Since(info.ModTime())`: an error, or the age of the file in nanoseconds. -/
structure OS where
  getenvXdgCacheHome : String
  userCacheDir : Except Error String
  filepathJoin : List String → String
  filepathDir : String → String
  stat : String → Except Error Int
  readFile : String → Except Error String
  mkdirAll : String → Option Error

/-- Go `time.Hour`, in nanoseconds. -/
def Hour : Int := 3600 * 1000000000

/-- Go `time.Second`, in nanoseconds. -/
def Second : Int := 1000000000

/-- Embedding of `getCachedUsername` (main.go 58-84): the returned pair is
the Go pair `(string, error)`. -/
def getCachedUsername (os : OS) : String × Option Error :=
  let resolved : Except Error String :=
    if os.getenvXdgCacheHome = "" then os.userCacheDir else .ok os.getenvXdgCacheHome
  match resolved with
  | .error err => ("", some err)
  | .ok cacheDir =>
    let cachePath := os.filepathJoin [cacheDir, "noir", "username"]
    match os.stat cachePath with
    | .error err => ("", some err)
    | .ok age =>
      -- here `err` of the stat is nil
      let err : Option Error := none
      if age < 7 * 24 * Hour then
        match os.readFile cachePath with
        | .ok d => (d, none)
        | .error err => ("", some err)
      else
        ("", err)

/-! ## The widgets -/

/-- The widgets outside `main.go`, as parameters: the text-entry widget
`noir/textinput` (`tiUpdate`, `tiValue`, `tiSetSuggestions` are its methods
`Update`, `Value`, `SetSuggestions`) and the spinner. `searchNew` is the
value `ti` built at main.go 266-273, `loginNew` the value `dti` of 275-279 and
`spinnerNew` the value `s` of 281-283. -/
structure Widgets where
  TextInput : Type
  Spinner : Type
  searchNew : TextInput
  loginNew : TextInput
  spinnerNew : Spinner
  tiUpdate : TextInput → Msg → TextInput × Cmd
  tiValue : TextInput → String
  tiSetSuggestions : TextInput → List String → TextInput
  tiBlink : Cmd
  spinnerUpdate : Spinner → Msg → Spinner × Cmd
  spinnerTick : Spinner → Cmd

/-! ## The model -/

/-- Go `type view int`. -/
abbrev view := Int

/-- The constant `Search` (iota 0). -/
def Search : view := 0

/-- The constant `Details` (iota 1). -/
def Details : view := 1

/-- Embedding of `type model struct` (main.go 249-263). -/
structure model (W : Widgets) where
  errorMsg : String
  currentView : view
  spinner : W.Spinner
  waiting : Bool
  searchTextInput : W.TextInput
  details : details
  detailsFocusIndex : Int
  detailsLoginTextInput : W.TextInput
  detailsLoginActive : Bool

/-- The program state: the global map `steamGames` and the model. A name that
is no key of the map is sent to `none`. -/
structure State (W : Widgets) where
  steamGames : String → Option Int
  m : model W

/-- Go map assignment `steamGames[name] = appid`. -/
def mapSet (g : String → Option Int) (name : String) (appid : Int) : String → Option Int :=
  fun k => if k = name then some appid else g k

/-- A call `os.WriteFile(path, data, 0755)` made by a step. -/
structure FileWrite where
  path : String
  data : String
  deriving DecidableEq, Repr

/-- What a call of an update function yields: the new state, the returned
command, and the file writes it made. -/
structure Result (W : Widgets) where
  state : State W
  cmd : Cmd
  writes : List FileWrite

/-- Embedding of `initialModel` (main.go 265-286): the fields not listed in
the composite literal have their zero values. -/
def initialModel (W : Widgets) : model W :=
  { errorMsg := "", currentView := 0, spinner := W.spinnerNew, waiting := false,
    searchTextInput := W.searchNew, details := details.zero, detailsFocusIndex := 0,
    detailsLoginTextInput := W.loginNew, detailsLoginActive := false }

/-- The state when `main` starts the program: `steamGames` is the empty map
made at main.go 25. -/
def initialState (W : Widgets) : State W :=
  { steamGames := fun _ => none, m := initialModel W }

/-- Embedding of `model.Init` (main.go 288-290). -/
def Init (W : Widgets) (m : model W) : Cmd :=
  .Batch [.getGames, W.tiBlink, W.spinnerTick m.spinner]

/-- Go `int` arithmetic: the result wrapped to 64 bits, two's complement. -/
def wrapInt (x : Int) : Int :=
  (x + 9223372036854775808) % 18446744073709551616 - 9223372036854775808

/-! ## Updates -/

/-- Embedding of `model.SearchUpdate` (main.go 294-320). -/
def SearchUpdate (W : Widgets) (s : State W) (msg : Msg) : Result W :=
  -- the tail of the function, lines 315-319, from the model and `cmds` reached
  let finish (m : model W) (cmds : List Cmd) : Result W :=
    let r := W.tiUpdate m.searchTextInput msg
    { state := { s with m := { m with searchTextInput := r.1 } },
      cmd := .Batch (cmds ++ [r.2]), writes := [] }
  match msg with
  | .KeyMsg k =>
    match k.Type_ with
    | .KeyEnter =>
      match s.steamGames (W.tiValue s.m.searchTextInput) with
      | some appid =>
        { state := { s with m := { s.m with currentView := Details } },
          cmd := .getGameInfo appid, writes := [] }
      | none =>
        finish { s.m with errorMsg := "invalid input\n" } [.Tick (2 * Second) .clearErrorMsg]
    | _ => finish s.m []
  | _ => finish s.m []

/-- The slice `platforms` and the counter `numButtons` computed at the head of
`DetailsUpdate` (main.go 324-338). -/
def platformButtons (p : platformSupport) : List String × Int :=
  let a : List String × Int := ([], 0)
  let b := if p.MacOS then (a.1 ++ ["macos"], a.2 + 1) else a
  let c := if p.Linux then (b.1 ++ ["linux"], b.2 + 1) else b
  if p.Windows then (c.1 ++ ["windows"], c.2 + 1) else c

/-- The write of the username file in the login prompt (main.go 347-357):
the list of `os.WriteFile` calls made, empty when the cache directory does not
resolve or `os.MkdirAll` fails. -/
def saveUsername (os : OS) (value : String) : List FileWrite :=
  let resolved : Except Error String :=
    if os.getenvXdgCacheHome = "" then os.userCacheDir else .ok os.getenvXdgCacheHome
  match resolved with
  | .error _ => []
  | .ok cacheDir =>
    let cachePath := os.filepathJoin [cacheDir, "noir", "username"]
    match os.mkdirAll (os.filepathDir cachePath) with
    | none => [{ path := cachePath, data := value }]
    | some _ => []

/-- Embedding of `model.DetailsUpdate` (main.go 322-397). -/
def DetailsUpdate (W : Widgets) (os : OS) (s : State W) (msg : Msg) : Result W :=
  let platforms := (platformButtons s.m.details.Platforms).1
  let numButtons := (platformButtons s.m.details.Platforms).2
  let m := s.m
  if m.detailsLoginActive then
    -- lines 366-369
    let typed : Result W :=
      let r := W.tiUpdate m.detailsLoginTextInput msg
      { state := { s with m := { m with detailsLoginTextInput := r.1 } }, cmd := r.2, writes := [] }
    match msg with
    | .KeyMsg k =>
      match k.Type_ with
      | .KeyEnter =>
        { state := { s with m := { m with detailsLoginActive := false, waiting := true } },
          cmd := .downloadGame m.details.Appid platforms m.detailsFocusIndex
                   (W.tiValue m.detailsLoginTextInput),
          writes := saveUsername os (W.tiValue m.detailsLoginTextInput) }
      | _ => typed
    | _ => typed
  else if !m.waiting then
    match msg with
    | .KeyMsg k =>
      match k.Type_ with
      | .KeyEscape =>
        { state := { s with m := { m with currentView := Search, detailsFocusIndex := 0 } },
          cmd := .nil, writes := [] }
      | .KeyRight =>
        { state := { s with m := { m with
            detailsFocusIndex := min (numButtons - 1) (wrapInt (m.detailsFocusIndex + 1)) } },
          cmd := .nil, writes := [] }
      | .KeyLeft =>
        { state := { s with m := { m with
            detailsFocusIndex := max 0 (wrapInt (m.detailsFocusIndex - 1)) } },
          cmd := .nil, writes := [] }
      | .KeyEnter =>
        match getCachedUsername os with
        | (username, none) =>
          { state := { s with m := { m with waiting := true } },
            cmd := .downloadGame m.details.Appid platforms m.detailsFocusIndex username,
            writes := [] }
        | (_, some _) =>
          { state := { s with m := { m with detailsLoginActive := true } },
            cmd := .nil, writes := [] }
      | _ => { state := s, cmd := .nil, writes := [] }
    | _ => { state := s, cmd := .nil, writes := [] }
  else
    { state := s, cmd := .nil, writes := [] }

/-- The second switch of `Update` (main.go 425-432): dispatch on the view. -/
def viewUpdate (W : Widgets) (os : OS) (s : State W) (msg : Msg) : Result W :=
  if s.m.currentView = Search then SearchUpdate W s msg
  else if s.m.currentView = Details then DetailsUpdate W os s msg
  else { state := s, cmd := .nil, writes := [] }

/-- The loop of the case `fetchSuccessMsg` (main.go 407-411): the slice
`suggestions` and the map `steamGames` after it. -/
def addGames (games : List game) (steamGames : String → Option Int) :
    List String × (String → Option Int) :=
  games.foldl (fun acc r => (acc.1 ++ [r.Name], mapSet acc.2 r.Name r.Appid)) ([], steamGames)

/-- Embedding of `model.Update` (main.go 399-433). -/
def Update (W : Widgets) (os : OS) (s : State W) (msg : Msg) : Result W :=
  match msg with
  | .KeyMsg k =>
    match k.Type_ with
    | .KeyCtrlC => { state := s, cmd := .Quit, writes := [] }
    | _ => viewUpdate W os s msg
  | .fetchSuccessMsg games =>
    let r := addGames games s.steamGames
    viewUpdate W os
      { steamGames := r.2,
        m := { s.m with searchTextInput := W.tiSetSuggestions s.m.searchTextInput r.1 } } msg
  | .fetchDetailsSuccessMsg d =>
    viewUpdate W os { s with m := { s.m with details := d } } msg
  | .clearErrorMsg =>
    viewUpdate W os { s with m := { s.m with errorMsg := "" } } msg
  | .downloadGameSuccess =>
    viewUpdate W os { s with m := { s.m with waiting := false } } msg
  | .spinnerTickMsg =>
    let r := W.spinnerUpdate s.m.spinner msg
    { state := { s with m := { s.m with spinner := r.1 } }, cmd := r.2, writes := [] }
  | _ => viewUpdate W os s msg

/-! ## Runs -/

/-- One fold step: the state after `Update`. -/
def step (W : Widgets) (s : State W) (i : OS × Msg) : State W :=
  (Update W i.1 s i.2).state

/-- The state after folding a sequence of messages, each with the environment
it is handled in, from the initial state. -/
def run (W : Widgets) (inputs : List (OS × Msg)) : State W :=
  inputs.foldl (step W) (initialState W)

/-- The states reachable from `initialModel` by folding messages through `Update`. -/
inductive Reachable (W : Widgets) : State W → Prop
  | init : Reachable W (initialState W)
  | step {s : State W} (os : OS) (msg : Msg) :
      Reachable W s → Reachable W (Update W os s msg).state

/-! ## Concrete instances used for runs -/

/-- Modelled from the spec: the text-entry widget `noir/textinput` and the
spinner are not in `main.go`; this instance, used for concrete runs only, is a
single-line text field whose value is the characters typed so far: rune keys
append to it, no other message changes it, and it returns no command. -/
def plainWidgets : Widgets :=
  { TextInput := List Char, Spinner := Unit,
    searchNew := [], loginNew := [], spinnerNew := (),
    tiUpdate := fun v msg =>
      match msg with
      | .KeyMsg k => if k.Type_ = .KeyRunes then (v ++ k.Runes, .nil) else (v, .nil)
      | _ => (v, .nil),
    tiValue := fun v => String.mk v,
    tiSetSuggestions := fun v _ => v,
    tiBlink := .ext 0,
    spinnerUpdate := fun u _ => (u, .ext 1),
    spinnerTick := fun _ => .ext 1 }

/-- An environment whose cache directory is set through `XDG_CACHE_HOME` and
whose username file exists with the given age (nanoseconds) and contents. -/
def osWithUsername (age : Int) (contents : String) : OS :=
  { getenvXdgCacheHome := "/home/u/.cache",
    userCacheDir := .ok "/home/u/.cache",
    filepathJoin := fun parts => "/".intercalate parts,
    filepathDir := fun _ => "/home/u/.cache/noir",
    stat := fun _ => .ok age,
    readFile := fun _ => .ok contents,
    mkdirAll := fun _ => none }

/-- An environment without a username file. -/
def osNoUsername : OS :=
  { getenvXdgCacheHome := "/home/u/.cache",
    userCacheDir := .ok "/home/u/.cache",
    filepathJoin := fun parts => "/".intercalate parts,
    filepathDir := fun _ => "/home/u/.cache/noir",
    stat := fun _ => .error "stat: no such file or directory",
    readFile := fun _ => .error "open: no such file or directory",
    mkdirAll := fun _ => none }

/-- A key press of the given kind, without runes. -/
def key (t : KeyType) : Msg := .KeyMsg { Type_ := t, Runes := [], Alt := false }

/-- The key press typing the given characters. -/
def typed (cs : List Char) : Msg := .KeyMsg { Type_ := .KeyRunes, Runes := cs, Alt := false }

/-- Details of app 10 with the given platform flags. -/
def detailsOf (mac linux windows : Bool) : details :=
  { Appid := 10, Title := "a", Description := "", Developer := [],
    ReleaseDate := { ComingSoon := false, Date := "" }, Website := "",
    Platforms := { MacOS := mac, Linux := linux, Windows := windows } }

/-! ## Definitions used to state the properties -/

/-- The invariant carried along every run: in the Search view the focus index
is 0, and the login prompt is not active while a download is awaited. -/
def Inv (W : Widgets) (s : State W) : Prop :=
  (s.m.currentView = Search → s.m.detailsFocusIndex = 0) ∧
  (s.m.waiting = true → s.m.detailsLoginActive = false)

/-- The ordered list of supported platforms in the words of the
specification: macOS, then Linux, then Windows, only those marked supported. -/
def orderedSupported (p : platformSupport) : List String :=
  ([("macos", p.MacOS), ("linux", p.Linux), ("windows", p.Windows)].filter (fun e => e.2)).map
    (fun e => e.1)

/-- The last entry of a game list with the given name, in the words of the
specification (exact, case-sensitive match of the name). -/
def lastEntryNamed (L : List game) (name : String) : Option game :=
  L.reverse.find? (fun g => decide (g.Name = name))

/-- The catalog arrives with the game "a" (id 10), the user types "a" and
presses Enter: the Details view is shown, its details not yet fetched. -/
def toDetails (os : OS) : List (OS × Msg) :=
  [(os, .fetchSuccessMsg [{ Appid := 10, Name := "a" }]), (os, typed ['a']),
   (os, key .KeyEnter)]

/-- The Enter key press. -/
def enterKey : KeyMsg := { Type_ := .KeyEnter, Runes := [], Alt := false }

/-- The state after the catalog with the game "a" (id 10) arrived and "a" was
typed in the search field. -/
def stateTyped : State plainWidgets :=
  run plainWidgets
    [(osNoUsername, .fetchSuccessMsg [{ Appid := 10, Name := "a" }]), (osNoUsername, typed ['a'])]

/-- The state showing the details of a game supported on macOS and Linux. -/
def stateDetails : State plainWidgets :=
  run plainWidgets (toDetails osNoUsername ++
    [(osNoUsername, .fetchDetailsSuccessMsg (detailsOf true true false))])

/-- The state after a download was started from the Details view with the
fresh cached username "bob". -/
def stateDownloading : State plainWidgets :=
  run plainWidgets (toDetails osNoUsername ++ [(osWithUsername 0 "bob", key .KeyEnter)])

/-- The state after a download was started from the login prompt: Enter
without a username file, then Enter in the prompt. -/
def statePromptDownload : State plainWidgets :=
  run plainWidgets (toDetails osNoUsername ++
    [(osNoUsername, key .KeyEnter), (osNoUsername, key .KeyEnter)])

/-- The run in which Right is pressed in the Details view before the details
arrive, and details supporting macOS alone arrive afterwards. -/
def runRightThenDetails : List (OS × Msg) :=
  toDetails osNoUsername ++
    [(osNoUsername, key .KeyRight),
     (osNoUsername, .fetchDetailsSuccessMsg (detailsOf true false false))]

/-- The state at the end of `runRightThenDetails`. -/
def stateRightThenDetails : State plainWidgets :=
  run plainWidgets runRightThenDetails

/-- The run in which details with three platforms arrive, Right is pressed
twice, and details supporting macOS alone arrive afterwards. -/
def runShrinkingDetails : List (OS × Msg) :=
  toDetails osNoUsername ++
    [(osNoUsername, .fetchDetailsSuccessMsg (detailsOf true true true)),
     (osNoUsername, key .KeyRight), (osNoUsername, key .KeyRight),
     (osNoUsername, .fetchDetailsSuccessMsg (detailsOf true false false))]

/-! ## The credential store -/

/-- When the cache directory resolves and the stat succeeds on a file whose age
is at least 7 days, `getCachedUsername` returns the empty string with a nil error. -/
theorem getCachedUsername_stale (os : OS) (age : Int)
    (hdir : os.getenvXdgCacheHome ≠ "")
    (hstat : os.stat (os.filepathJoin [os.getenvXdgCacheHome, "noir", "username"]) = .ok age)
    (hage : 7 * 24 * Hour ≤ age) :
    getCachedUsername os = ("", none) := by
  unfold getCachedUsername
  simp only [if_neg hdir, hstat]
  have h : ¬ age < 7 * 24 * Hour := not_lt.mpr hage
  simp only [if_neg h]

/-- When the cache directory resolves and the stat succeeds on a file younger
than 7 days, `getCachedUsername` returns the contents read, or the read error. -/
theorem getCachedUsername_fresh (os : OS) (age : Int)
    (hdir : os.getenvXdgCacheHome ≠ "")
    (hstat : os.stat (os.filepathJoin [os.getenvXdgCacheHome, "noir", "username"]) = .ok age)
    (hage : age < 7 * 24 * Hour) :
    getCachedUsername os =
      match os.readFile (os.filepathJoin [os.getenvXdgCacheHome, "noir", "username"]) with
      | .ok d => (d, none)
      | .error err => ("", some err) := by
  unfold getCachedUsername
  simp only [if_neg hdir, hstat, if_pos hage]

/-- When the stat of the username file fails, `getCachedUsername` returns the
stat error. -/
theorem getCachedUsername_absent (os : OS) (err : Error)
    (hdir : os.getenvXdgCacheHome ≠ "")
    (hstat : os.stat (os.filepathJoin [os.getenvXdgCacheHome, "noir", "username"]) = .error err) :
    getCachedUsername os = ("", some err) := by
  unfold getCachedUsername
  simp only [if_neg hdir, hstat]

/-- C1 (code defect): with the cache directory set and a username file whose
age is exactly 7 days, `getCachedUsername` returns the empty username with a
nil error, not an error. -/
theorem getCachedUsername_at_seven_days :
    getCachedUsername (osWithUsername (7 * 24 * Hour) "alice") = ("", none) := by
  decide

/-! ## Invariants of the reachable states -/

theorem Inv_initialState (W : Widgets) : Inv W (initialState W) := by
  simp [Inv, initialState, initialModel]

theorem Inv_SearchUpdate (W : Widgets) (s : State W) (msg : Msg)
    (hv : s.m.currentView = Search) (h : Inv W s) : Inv W (SearchUpdate W s msg).state := by
  obtain ⟨h1, h2⟩ := h
  have h0 := h1 hv
  unfold SearchUpdate
  simp only []
  split
  · split
    · split
      · exact ⟨fun _ => h0, h2⟩
      · exact ⟨fun _ => h0, h2⟩
    · exact ⟨fun _ => h0, h2⟩
  · exact ⟨fun _ => h0, h2⟩

theorem Inv_DetailsUpdate (W : Widgets) (os : OS) (s : State W) (msg : Msg)
    (hv : s.m.currentView = Details) (h : Inv W s) :
    Inv W (DetailsUpdate W os s msg).state := by
  obtain ⟨h1, h2⟩ := h
  have hne : ¬ (Details = Search) := by decide
  have hs : s.m.currentView = Search → s.m.detailsFocusIndex = 0 := h1
  unfold DetailsUpdate
  simp only []
  split
  · rename_i hl
    split
    · split
      · exact ⟨fun hc => absurd (hv.symm.trans hc) hne, fun _ => rfl⟩
      all_goals exact ⟨h1, fun hw => by simp [h2 hw] at hl⟩
    · exact ⟨h1, fun hw => by simp [h2 hw] at hl⟩
  · rename_i hl
    split
    · rename_i hw
      split
      · split
        · exact ⟨fun _ => rfl, h2⟩
        · exact ⟨fun hc => absurd (hv.symm.trans hc) hne, h2⟩
        · exact ⟨fun hc => absurd (hv.symm.trans hc) hne, h2⟩
        · split
          · exact ⟨h1, fun _ => by simpa using hl⟩
          · exact ⟨h1, fun hw2 => absurd (show s.m.waiting = true from hw2) (by simpa using hw)⟩
        · exact ⟨h1, h2⟩
      · exact ⟨h1, h2⟩
    · exact ⟨h1, h2⟩

theorem Inv_viewUpdate (W : Widgets) (os : OS) (s : State W) (msg : Msg) (h : Inv W s) :
    Inv W (viewUpdate W os s msg).state := by
  unfold viewUpdate
  split
  · rename_i hv
    exact Inv_SearchUpdate W s msg hv h
  · split
    · rename_i hv
      exact Inv_DetailsUpdate W os s msg hv h
    · exact h

theorem Inv_Update (W : Widgets) (os : OS) (s : State W) (msg : Msg) (h : Inv W s) :
    Inv W (Update W os s msg).state := by
  obtain ⟨h1, h2⟩ := h
  unfold Update
  split
  · split
    · exact ⟨h1, h2⟩
    · exact Inv_viewUpdate W os s _ ⟨h1, h2⟩
  · exact Inv_viewUpdate W os _ _ ⟨h1, h2⟩
  · exact Inv_viewUpdate W os _ _ ⟨h1, h2⟩
  · exact Inv_viewUpdate W os _ _ ⟨h1, h2⟩
  · exact Inv_viewUpdate W os _ _ ⟨h1, fun hw => by simp at hw⟩
  · exact ⟨h1, h2⟩
  · exact Inv_viewUpdate W os s _ ⟨h1, h2⟩

theorem Inv_of_Reachable (W : Widgets) (s : State W) (h : Reachable W s) : Inv W s := by
  induction h with
  | init => exact Inv_initialState W
  | step os msg _ ih => exact Inv_Update W os _ msg ih

/-- Every state of a run is reachable. -/
theorem Reachable_foldl (W : Widgets) (inputs : List (OS × Msg)) (s : State W)
    (h : Reachable W s) : Reachable W (inputs.foldl (step W) s) := by
  induction inputs generalizing s with
  | nil => exact h
  | cons i rest ih => exact ih _ (Reachable.step i.1 i.2 h)

theorem Reachable_run (W : Widgets) (inputs : List (OS × Msg)) : Reachable W (run W inputs) :=
  Reachable_foldl W inputs _ Reachable.init

/-! ## The claims about single steps and runs -/

/-- C8: in no state reachable from the initial model are `waiting` and
`detailsLoginActive` both true. -/
theorem waiting_login_exclusive (W : Widgets) (s : State W) (h : Reachable W s) :
    ¬ (s.m.waiting = true ∧ s.m.detailsLoginActive = true) := by
  intro hb
  have h2 := (Inv_of_Reachable W s h).2 hb.1
  rw [hb.2] at h2
  cases h2

/-- C3: for a reachable state showing the Search view and every catalog in
which the text of the search field is a key mapped to `X`, an Enter key press
yields the Details view with focus index 0, and the command returned is the
detail fetch for `X` itself, not a batch. -/
theorem search_enter_hit (W : Widgets) (os : OS) (s : State W) (catalog : String → Option Int)
    (k : KeyMsg) (X : Int)
    (hr : Reachable W s) (hv : s.m.currentView = Search) (hk : k.Type_ = .KeyEnter)
    (hx : catalog (W.tiValue s.m.searchTextInput) = some X) :
    (Update W os { steamGames := catalog, m := s.m } (.KeyMsg k)).state.m.currentView
      = Details ∧
    (Update W os { steamGames := catalog, m := s.m } (.KeyMsg k)).state.m.detailsFocusIndex
      = 0 ∧
    (Update W os { steamGames := catalog, m := s.m } (.KeyMsg k)).cmd = .getGameInfo X := by
  have h0 := (Inv_of_Reachable W s hr).1 hv
  simp [Update, viewUpdate, SearchUpdate, hk, hv, hx, h0]

/-- C4: in the Search view, when the text of the search field is no key of the
catalog, an Enter key press keeps the Search view, sets the error message to
the invalid-input text and returns a batch holding the 2-second timer of
`clearErrorMsg`; folding `clearErrorMsg` next empties the error message and
leaves view, waiting, focus index, login flag and details as before the Enter. -/
theorem search_enter_miss (W : Widgets) (os os2 : OS) (s : State W) (k : KeyMsg)
    (hv : s.m.currentView = Search) (hk : k.Type_ = .KeyEnter)
    (hx : s.steamGames (W.tiValue s.m.searchTextInput) = none) :
    (Update W os s (.KeyMsg k)).state.m.currentView = Search ∧
    (Update W os s (.KeyMsg k)).state.m.errorMsg = "invalid input\n" ∧
    (Update W os s (.KeyMsg k)).cmd =
      .Batch [.Tick (2 * Second) .clearErrorMsg, (W.tiUpdate s.m.searchTextInput (.KeyMsg k)).2] ∧
    (Update W os2 (Update W os s (.KeyMsg k)).state .clearErrorMsg).state.m.errorMsg = "" ∧
    (Update W os2 (Update W os s (.KeyMsg k)).state .clearErrorMsg).state.m.currentView
      = s.m.currentView ∧
    (Update W os2 (Update W os s (.KeyMsg k)).state .clearErrorMsg).state.m.waiting
      = s.m.waiting ∧
    (Update W os2 (Update W os s (.KeyMsg k)).state .clearErrorMsg).state.m.detailsFocusIndex
      = s.m.detailsFocusIndex ∧
    (Update W os2 (Update W os s (.KeyMsg k)).state .clearErrorMsg).state.m.detailsLoginActive
      = s.m.detailsLoginActive ∧
    (Update W os2 (Update W os s (.KeyMsg k)).state .clearErrorMsg).state.m.details
      = s.m.details := by
  simp [Update, viewUpdate, SearchUpdate, hk, hv, hx]

theorem Details_ne_Search : ¬ (Details = Search) := by decide

theorem platformButtons_eq (p : platformSupport) :
    platformButtons p = (orderedSupported p, ((orderedSupported p).length : Int)) := by
  rcases p with ⟨a, b, c⟩
  cases a <;> cases b <;> cases c <;> rfl

/-- The Enter key in the normal mode of the Details view (login prompt
inactive, no download awaited): an Enter key press activates the login prompt and returns no command
when `getCachedUsername` returns an error; when it returns a username `u` with
a nil error, `waiting` is set and the command returned is the download of
`details.Appid` for the platform at `detailsFocusIndex` of the ordered
supported-platform list, with username `u`: when that index is in range, the
command calls `downloadGame` with the platform found there. -/
theorem details_enter (W : Widgets) (os : OS) (s : State W) (k : KeyMsg)
    (hv : s.m.currentView = Details) (hl : s.m.detailsLoginActive = false)
    (hw : s.m.waiting = false) (hk : k.Type_ = .KeyEnter) :
    (∀ u e, getCachedUsername os = (u, some e) →
      (Update W os s (.KeyMsg k)).state.m.detailsLoginActive = true ∧
      (Update W os s (.KeyMsg k)).state.m.waiting = false ∧
      (Update W os s (.KeyMsg k)).cmd = .nil) ∧
    (∀ u, getCachedUsername os = (u, none) →
      (Update W os s (.KeyMsg k)).state.m.waiting = true ∧
      (Update W os s (.KeyMsg k)).state.m.detailsLoginActive = false ∧
      (Update W os s (.KeyMsg k)).cmd =
        .downloadGame s.m.details.Appid (orderedSupported s.m.details.Platforms)
          s.m.detailsFocusIndex u ∧
      ∀ p, sliceIndex (orderedSupported s.m.details.Platforms) s.m.detailsFocusIndex = some p →
        (Update W os s (.KeyMsg k)).cmd.downloadArgs = some (s.m.details.Appid, p, u)) := by
  constructor
  · intro u e hc
    simp [Update, viewUpdate, DetailsUpdate, hk, hv, hl, hw, hc, Details_ne_Search]
  · intro u hc
    have hcmd : (Update W os s (.KeyMsg k)).cmd =
        .downloadGame s.m.details.Appid (orderedSupported s.m.details.Platforms)
          s.m.detailsFocusIndex u := by
      simp [Update, viewUpdate, DetailsUpdate, hk, hv, hl, hw, hc, Details_ne_Search,
        platformButtons_eq]
    refine ⟨?_, ?_, hcmd, ?_⟩
    · simp [Update, viewUpdate, DetailsUpdate, hk, hv, hl, hw, hc, Details_ne_Search]
    · simp [Update, viewUpdate, DetailsUpdate, hk, hv, hl, hw, hc, Details_ne_Search]
    · intro p hp
      rw [hcmd]
      simp only [Cmd.downloadArgs, hp]

/-- C9: in the Details view while a download is awaited and the login prompt
is inactive, a key press other than Ctrl-C returns the state unchanged with no
command, and Ctrl-C returns the state unchanged with the quit command. -/
theorem waiting_keys_suppressed (W : Widgets) (os : OS) (s : State W) (k : KeyMsg)
    (hv : s.m.currentView = Details) (hw : s.m.waiting = true)
    (hl : s.m.detailsLoginActive = false) :
    (k.Type_ ≠ .KeyCtrlC →
      Update W os s (.KeyMsg k) = { state := s, cmd := .nil, writes := [] }) ∧
    (k.Type_ = .KeyCtrlC →
      Update W os s (.KeyMsg k) = { state := s, cmd := .Quit, writes := [] }) := by
  constructor
  · intro hk
    simp [Update, viewUpdate, DetailsUpdate, hk, hv, hw, hl, Details_ne_Search]
  · intro hk
    simp [Update, hk]

/-! ## Download results -/

theorem viewUpdate_waiting_of_not_key (W : Widgets) (os : OS) (s : State W) (msg : Msg)
    (hmsg : ∀ k, msg ≠ .KeyMsg k) :
    (viewUpdate W os s msg).state.m.waiting = s.m.waiting := by
  cases msg with
  | KeyMsg k => exact absurd rfl (hmsg k)
  | _ =>
    simp only [viewUpdate, SearchUpdate, DetailsUpdate]
    split_ifs <;> rfl

/-- Folding `downloadGameSuccess` clears `waiting`, in every state. -/
theorem waiting_cleared_on_success (W : Widgets) (os : OS) (s : State W) :
    (Update W os s .downloadGameSuccess).state.m.waiting = false := by
  simp only [Update]
  rw [viewUpdate_waiting_of_not_key W os _ _ (by intro k h; cases h)]

/-- Folding a `fetchErrMsg` leaves `waiting` as it was, in every state. -/
theorem waiting_kept_on_error (W : Widgets) (os : OS) (s : State W) (e : Error) :
    (Update W os s (.fetchErrMsg e)).state.m.waiting = s.m.waiting := by
  simp only [Update]
  rw [viewUpdate_waiting_of_not_key W os _ _ (by intro k h; cases h)]

/-- In the Details view while a download is awaited, no message other than
`downloadGameSuccess` clears `waiting` or leaves the view. -/
theorem waiting_kept_unless_success (W : Widgets) (os : OS) (s : State W) (msg : Msg)
    (hv : s.m.currentView = Details) (hw : s.m.waiting = true)
    (hl : s.m.detailsLoginActive = false) (hmsg : msg ≠ .downloadGameSuccess) :
    (Update W os s msg).state.m.waiting = true ∧
    (Update W os s msg).state.m.currentView = Details ∧
    (Update W os s msg).state.m.detailsLoginActive = false := by
  cases msg with
  | downloadGameSuccess => exact absurd rfl hmsg
  | KeyMsg k =>
    by_cases hk : k.Type_ = .KeyCtrlC
    · simp [Update, hk, hv, hw, hl]
    · simp [Update, viewUpdate, DetailsUpdate, hk, hv, hw, hl, Details_ne_Search]
  | _ => simp [Update, viewUpdate, DetailsUpdate, hv, hw, hl, Details_ne_Search]

/-! ## The catalog -/

theorem viewUpdate_steamGames (W : Widgets) (os : OS) (s : State W) (msg : Msg) :
    (viewUpdate W os s msg).state.steamGames = s.steamGames := by
  simp only [viewUpdate, SearchUpdate, DetailsUpdate]
  repeat' split
  all_goals rfl

theorem addGames_append (L : List game) (g : game) (c : String → Option Int) :
    addGames (L ++ [g]) c =
      ((addGames L c).1 ++ [g.Name], mapSet (addGames L c).2 g.Name g.Appid) := by
  simp [addGames, List.foldl_append]

theorem addGames_lookup (L : List game) (c : String → Option Int) (name : String) :
    (addGames L c).2 name =
      match lastEntryNamed L name with
      | some g => some g.Appid
      | none => c name := by
  induction L using List.reverseRecOn with
  | nil => simp [addGames, lastEntryNamed]
  | append_singleton L g ih =>
    rw [addGames_append]
    simp only [mapSet, lastEntryNamed, List.reverse_append, List.reverse_cons, List.reverse_nil,
      List.nil_append, List.singleton_append, List.find?_cons]
    by_cases hg : g.Name = name
    · simp [hg]
    · have hg2 : ¬ name = g.Name := fun h => hg h.symm
      simp only [hg, hg2, decide_False, if_false]
      exact ih

/-- C7, as amended: after folding `fetchSuccessMsg L`, a name that occurs in
`L` resolves to the id of the last entry of `L` with exactly that name, and a
name that does not occur in `L` resolves as it did before the fold: the
entries of `L` are added to the catalog, the earlier ones are kept. -/
theorem catalog_after_fetchSuccess (W : Widgets) (os : OS) (s : State W) (L : List game)
    (name : String) :
    (Update W os s (.fetchSuccessMsg L)).state.steamGames name =
      match lastEntryNamed L name with
      | some g => some g.Appid
      | none => s.steamGames name := by
  simp only [Update]
  rw [viewUpdate_steamGames]
  exact addGames_lookup L s.steamGames name

theorem lastEntryNamed_eq_none (L : List game) (name : String) :
    lastEntryNamed L name = none ↔ ∀ g ∈ L, g.Name ≠ name := by
  simp [lastEntryNamed]

theorem lastEntryNamed_some (L : List game) (name : String) (g : game)
    (h : lastEntryNamed L name = some g) : g ∈ L ∧ g.Name = name := by
  unfold lastEntryNamed at h
  have h1 := List.mem_of_find?_eq_some h
  have h2 := List.find?_some h
  exact ⟨by simpa using h1, by simpa using h2⟩

/-! ## Concrete runs -/

/-- C7, the claim fails: after the catalog [("old", 1)] was folded in, folding
the catalog [("new", 2)], in which the name "old" does not occur, leaves "old"
resolving to 1. -/
theorem catalog_keeps_stale_entry :
    lastEntryNamed [{ Appid := 2, Name := "new" }] "old" = none ∧
    (Update plainWidgets osNoUsername
      (run plainWidgets [(osNoUsername, .fetchSuccessMsg [{ Appid := 1, Name := "old" }])])
      (.fetchSuccessMsg [{ Appid := 2, Name := "new" }])).state.steamGames "old" = some 1 := by
  decide

/-- C6 (code defect): after a download was started from the Details view
(`waiting` is set), folding the error result of the download, the message
`fetchErrMsg` that `downloadGame` returns on failure, leaves `waiting` set,
where the claim has it cleared as for `downloadGameSuccess`. -/
theorem waiting_stays_after_error :
    stateDownloading.m.waiting = true ∧
    (Update plainWidgets osNoUsername stateDownloading
      (.fetchErrMsg "exit status 1")).state.m.waiting = true ∧
    (Update plainWidgets osNoUsername stateDownloading
      .downloadGameSuccess).state.m.waiting = false := by
  decide

/-- C5 (code defect): a reachable state that meets the conditions of the claim
(Details view, login prompt inactive, no download awaited, macOS supported)
with focus index -1, reached by pressing Right before the details arrive.
With the fresh cached username "bob" the Enter key sets `waiting` and returns
the download closure over the slice ["macos"] and the index -1: there is no
platform at that index, and the command calls `downloadGame` with none. -/
theorem details_enter_without_platform :
    (stateRightThenDetails.m.currentView = Details ∧
     stateRightThenDetails.m.detailsLoginActive = false ∧
     stateRightThenDetails.m.waiting = false ∧
     getCachedUsername (osWithUsername 0 "bob") = ("bob", none)) ∧
    (Update plainWidgets (osWithUsername 0 "bob") stateRightThenDetails
        (.KeyMsg enterKey)).state.m.waiting = true ∧
    sliceIndex (platformButtons stateRightThenDetails.m.details.Platforms).1
        stateRightThenDetails.m.detailsFocusIndex = none ∧
    (Update plainWidgets (osWithUsername 0 "bob") stateRightThenDetails
        (.KeyMsg enterKey)).cmd.downloadArgs = none := by
  refine ⟨by decide, by decide, by decide, rfl⟩

/-- C2 (code defect): two runs from the initial model that end in a state whose
details mark a platform as supported while the focus index is out of range.
In the first, Right is pressed in the Details view before the details arrive
(no button: the index becomes -1), then details with macOS alone arrive. In the
second, details with three platforms arrive, Right is pressed twice (index 2),
then details with macOS alone arrive. -/
theorem focusIndex_out_of_range :
    ((run plainWidgets runRightThenDetails).m.detailsFocusIndex = -1 ∧
     platformButtons (run plainWidgets runRightThenDetails).m.details.Platforms
        = (["macos"], 1)) ∧
    ((run plainWidgets runShrinkingDetails).m.detailsFocusIndex = 2 ∧
     platformButtons (run plainWidgets runShrinkingDetails).m.details.Platforms
        = (["macos"], 1)) := by
  decide

/-- C10 (code defect): download commands issued from reachable states whose
platform lookup is out of range. In the Details view before the details
arrive, Enter with a cached username issues the download with an empty
platform slice and index 0; after Right was pressed there and details with
macOS alone arrived, Enter in the login prompt issues it with index -1. -/
theorem download_index_out_of_range :
    ((Update plainWidgets (osWithUsername 0 "bob") (run plainWidgets (toDetails osNoUsername))
        (key .KeyEnter)).cmd = .downloadGame 0 [] 0 "bob" ∧
     (Update plainWidgets (osWithUsername 0 "bob") (run plainWidgets (toDetails osNoUsername))
        (key .KeyEnter)).cmd.downloadArgs = none) ∧
    ((Update plainWidgets osNoUsername (run plainWidgets (runRightThenDetails ++
        [(osNoUsername, key .KeyEnter), (osNoUsername, typed ['b'])]))
        (key .KeyEnter)).cmd = .downloadGame 10 ["macos"] (-1) "b" ∧
     (Update plainWidgets osNoUsername (run plainWidgets (runRightThenDetails ++
        [(osNoUsername, key .KeyEnter), (osNoUsername, typed ['b'])]))
        (key .KeyEnter)).cmd.downloadArgs = none) := by
  refine ⟨⟨rfl, rfl⟩, ⟨rfl, rfl⟩⟩

/-! ## The theorems at concrete states -/

/-- The statement of C8 at the state where a download has just been started
from the login prompt. -/
theorem waiting_login_exclusive_witness :
    statePromptDownload.m.waiting = true ∧
    ¬ (statePromptDownload.m.waiting = true ∧
       statePromptDownload.m.detailsLoginActive = true) :=
  ⟨by decide,
   waiting_login_exclusive plainWidgets statePromptDownload (Reachable_run plainWidgets _)⟩

/-- The statement of C3 after the catalog with the game "a" (id 10) arrived and
"a" was typed: Enter shows the Details view and fetches the details of 10. -/
theorem search_enter_hit_witness :
    stateTyped.m.currentView = Search ∧
    stateTyped.steamGames (plainWidgets.tiValue stateTyped.m.searchTextInput) = some 10 ∧
    ((Update plainWidgets osNoUsername stateTyped (.KeyMsg enterKey)).state.m.currentView
        = Details ∧
     (Update plainWidgets osNoUsername stateTyped (.KeyMsg enterKey)).state.m.detailsFocusIndex
        = 0 ∧
     (Update plainWidgets osNoUsername stateTyped (.KeyMsg enterKey)).cmd = .getGameInfo 10) :=
  ⟨by decide, by decide,
   search_enter_hit plainWidgets osNoUsername stateTyped stateTyped.steamGames enterKey 10
     (Reachable_run plainWidgets _) (by decide) rfl (by decide)⟩

/-- The statement of C4 at the initial state, whose catalog is empty. -/
theorem search_enter_miss_witness :
    (initialState plainWidgets).m.currentView = Search ∧
    (initialState plainWidgets).steamGames "" = none ∧
    (Update plainWidgets osNoUsername (initialState plainWidgets)
        (.KeyMsg enterKey)).state.m.errorMsg = "invalid input\n" ∧
    (Update plainWidgets osNoUsername (initialState plainWidgets) (.KeyMsg enterKey)).cmd
        = .Batch [.Tick 2000000000 .clearErrorMsg, .nil] ∧
    (Update plainWidgets osNoUsername
        (Update plainWidgets osNoUsername (initialState plainWidgets) (.KeyMsg enterKey)).state
        .clearErrorMsg).state.m.errorMsg = "" :=
  ⟨by decide, by decide,
   (search_enter_miss plainWidgets osNoUsername osNoUsername (initialState plainWidgets)
      enterKey (by decide) rfl (by decide)).2.1,
   (search_enter_miss plainWidgets osNoUsername osNoUsername (initialState plainWidgets)
      enterKey (by decide) rfl (by decide)).2.2.1,
   (search_enter_miss plainWidgets osNoUsername osNoUsername (initialState plainWidgets)
      enterKey (by decide) rfl (by decide)).2.2.2.1⟩

/-- The Enter key in the Details view of a game supported on macOS and Linux,
with the focus index in range: with the fresh cached username "bob" Enter starts the download for the
focused platform, without a username file it opens the login prompt. -/
theorem details_enter_witness :
    stateDetails.m.currentView = Details ∧
    getCachedUsername (osWithUsername 0 "bob") = ("bob", none) ∧
    (Update plainWidgets (osWithUsername 0 "bob") stateDetails
        (.KeyMsg enterKey)).state.m.waiting = true ∧
    (Update plainWidgets (osWithUsername 0 "bob") stateDetails (.KeyMsg enterKey)).cmd
        = .downloadGame 10 ["macos", "linux"] 0 "bob" ∧
    (Update plainWidgets (osWithUsername 0 "bob") stateDetails
        (.KeyMsg enterKey)).cmd.downloadArgs = some (10, "macos", "bob") ∧
    getCachedUsername osNoUsername = ("", some "stat: no such file or directory") ∧
    ((Update plainWidgets osNoUsername stateDetails (.KeyMsg enterKey)).state.m.detailsLoginActive
        = true ∧
     (Update plainWidgets osNoUsername stateDetails (.KeyMsg enterKey)).state.m.waiting
        = false ∧
     (Update plainWidgets osNoUsername stateDetails (.KeyMsg enterKey)).cmd = .nil) :=
  ⟨by decide, by decide,
   ((details_enter plainWidgets (osWithUsername 0 "bob") stateDetails enterKey
      (by decide) (by decide) (by decide) rfl).2 "bob" (by decide)).1,
   ((details_enter plainWidgets (osWithUsername 0 "bob") stateDetails enterKey
      (by decide) (by decide) (by decide) rfl).2 "bob" (by decide)).2.2.1,
   ((details_enter plainWidgets (osWithUsername 0 "bob") stateDetails enterKey
      (by decide) (by decide) (by decide) rfl).2 "bob" (by decide)).2.2.2 "macos" (by decide),
   by decide,
   (details_enter plainWidgets osNoUsername stateDetails enterKey
      (by decide) (by decide) (by decide) rfl).1 "" "stat: no such file or directory"
      (by decide)⟩

/-- The statement of C9 at the state where a download was started with the
cached username: the Right key changes nothing, Ctrl-C returns the quit command. -/
theorem waiting_keys_suppressed_witness :
    stateDownloading.m.waiting = true ∧
    Update plainWidgets osNoUsername stateDownloading (key .KeyRight)
      = { state := stateDownloading, cmd := .nil, writes := [] } ∧
    Update plainWidgets osNoUsername stateDownloading (key .KeyCtrlC)
      = { state := stateDownloading, cmd := .Quit, writes := [] } :=
  ⟨by decide,
   (waiting_keys_suppressed plainWidgets osNoUsername stateDownloading
      { Type_ := .KeyRight, Runes := [], Alt := false }
      (by decide) (by decide) (by decide)).1 (by decide),
   (waiting_keys_suppressed plainWidgets osNoUsername stateDownloading
      { Type_ := .KeyCtrlC, Runes := [], Alt := false }
      (by decide) (by decide) (by decide)).2 rfl⟩

end Noir
